import Mathlib

/-!
Shallow embedding of the motor-control core of the `esp-micropython` repository
(`gear-motor-has-hall-sentor/`): the quadrature encoder IRQ handler
(`encoder_reader.py`), the PID controller (`pid_controller.py`) and the
step-response tuning wizard / analyzer (`pid_tuning_guide.py`,
`pid_controller.py::PIDTuner`).

Conventions of the embedding:
- Python floats are modelled as rationals (`ℚ`); the millisecond tick counter
  (`utime.ticks_ms`) as an integer parameter passed to each call, with
  `utime.ticks_diff(a, b)` modelled as `a - b` (monotonic clock).
- A Python operation that can raise an exception (`ZeroDivisionError`) returns
  an `Option`: `none` models the raised exception.
- Python's `int(x)` truncation toward zero is `pyInt`; Python's float
  truthiness test (`if x:` with `x` either `None` or a float, where `0.0` is
  falsy) is `pyTruthy`; Python's slice `data[-n:]` (where `-0` means the whole
  list) is `pyLastSlice`.
-/

namespace Encoder

/-- State of `EncoderReader` relevant to the IRQ handler: the last sampled
(A, B) pin levels and the signed quadrature count, plus the cumulative edge
counter `total_count`. -/
structure EncState where
  lastA : Bool
  lastB : Bool
  count : ℤ
  total_count : ℤ
deriving DecidableEq, Repr

/-- `EncoderReader._encoder_irq`: on an edge event the handler samples the two
pins (`curA`, `curB`) and updates `count` by the simplified 4x decode rule of
the source:
if A changed, `count += 1` when A ≠ B else `count -= 1`;
otherwise if B changed, `count += 1` when B = A else `count -= 1`;
then both last-state fields are overwritten and `total_count` incremented. -/
def encoderIrq (s : EncState) (curA curB : Bool) : EncState :=
  let count :=
    if curA ≠ s.lastA then
      if curA ≠ curB then s.count + 1 else s.count - 1
    else if curB ≠ s.lastB then
      if curB = curA then s.count + 1 else s.count - 1
    else s.count
  { lastA := curA, lastB := curB, count := count,
    total_count := s.total_count + 1 }

/-- Process a list of edge events (each delivering the freshly sampled pin
pair) through `encoderIrq`. -/
def runIrq (s : EncState) (events : List (Bool × Bool)) : EncState :=
  events.foldl (fun st e => encoderIrq st e.1 e.2) s

/-- The forward phase sequence of the claim, phases written as (A, B):
00 → 01 → 11 → 10 → 00, delivered as four edge events from phase 00. -/
def fwdSeq : List (Bool × Bool) :=
  [(false, true), (true, true), (true, false), (false, false)]

/-- The reverse phase sequence: 00 → 10 → 11 → 01 → 00. -/
def revSeq : List (Bool × Bool) :=
  [(true, false), (true, true), (false, true), (false, false)]

/-- `EncoderReader.__init__`: `total_ppr = ppr * gear_ratio`; no validation is
performed on either argument. -/
def total_ppr (ppr gear_ratio : ℕ) : ℕ := ppr * gear_ratio

/-- `EncoderReader.get_angle`: `(self.count / self.total_ppr) * 360.0`.
The division is unguarded in the source; a zero `total_ppr` raises
`ZeroDivisionError`, modelled as `none`. -/
def get_angle (count : ℤ) (tppr : ℕ) : Option ℚ :=
  if tppr = 0 then none else some ((count : ℚ) / (tppr : ℚ) * 360)

end Encoder

namespace PID

/-- Python `int(x)` for a float `x`: truncation toward zero
(`q.num / q.den` in truncating integer division). -/
def pyInt (q : ℚ) : ℤ := Int.tdiv q.num (q.den : ℤ)

/-- Full mutable state of `PIDController`. -/
structure PIDState where
  kp : ℚ
  ki : ℚ
  kd : ℚ
  setpoint : ℚ
  output_min : ℚ
  output_max : ℚ
  sample_time : ℚ
  last_error : ℚ
  integral : ℚ
  last_time : ℤ
  output : ℚ
  error : ℚ
  p_term : ℚ
  i_term : ℚ
  d_term : ℚ
  integral_limit : ℚ
  derivative_filter_alpha : ℚ
  last_derivative : ℚ
deriving DecidableEq, Repr

/-- `PIDController.__init__`: all dynamic state zeroed, `last_time` set to the
current tick, `integral_limit = output_max * 0.8`,
`derivative_filter_alpha = 0.1`. No argument validation is performed. -/
def pidInit (kp ki kd setpoint output_min output_max sample_time : ℚ)
    (now : ℤ) : PIDState :=
  { kp := kp, ki := ki, kd := kd, setpoint := setpoint,
    output_min := output_min, output_max := output_max,
    sample_time := sample_time,
    last_error := 0, integral := 0, last_time := now, output := 0,
    error := 0, p_term := 0, i_term := 0, d_term := 0,
    integral_limit := output_max * (8/10),
    derivative_filter_alpha := 1/10, last_derivative := 0 }

/-- `PIDController.update(current_value)` called at tick `now`. Returns the
value the call returns (`none` when the call raises `ZeroDivisionError` in the
derivative term) together with the object state after the call. The raising
branch keeps the assignments the source performs before the division
(`error`, `p_term`, clamped `integral`, `i_term`). -/
def update (s : PIDState) (now : ℤ) (current_value : ℚ) :
    Option ℚ × PIDState :=
  if now - s.last_time < pyInt (s.sample_time * 1000) then
    (some s.output, s)
  else
    let error := s.setpoint - current_value
    let p_term := s.kp * error
    let integral0 := s.integral + error * s.sample_time
    let integral :=
      if integral0 > s.integral_limit then s.integral_limit
      else if integral0 < -s.integral_limit then -s.integral_limit
      else integral0
    let i_term := s.ki * integral
    if s.sample_time = 0 then
      (none, { s with error := error, p_term := p_term,
                      integral := integral, i_term := i_term })
    else
      let derivative := (error - s.last_error) / s.sample_time
      let filtered_derivative :=
        s.derivative_filter_alpha * derivative +
          (1 - s.derivative_filter_alpha) * s.last_derivative
      let d_term := s.kd * filtered_derivative
      let output0 := p_term + i_term + d_term
      let output :=
        if output0 > s.output_max then s.output_max
        else if output0 < s.output_min then s.output_min
        else output0
      (some output,
        { s with error := error, p_term := p_term,
                 integral := integral, i_term := i_term,
                 d_term := d_term, last_derivative := filtered_derivative,
                 output := output, last_error := error, last_time := now })

/-- `PIDController.set_tunings`. -/
def set_tunings (s : PIDState) (kp ki kd : ℚ) : PIDState :=
  { s with kp := kp, ki := ki, kd := kd }

/-- `PIDController.set_setpoint`: stores the new target and zeroes the
integral accumulator. -/
def set_setpoint (s : PIDState) (sp : ℚ) : PIDState :=
  { s with setpoint := sp, integral := 0 }

/-- `PIDController.reset` at tick `now`. -/
def pidReset (s : PIDState) (now : ℤ) : PIDState :=
  { s with last_error := 0, integral := 0, last_time := now,
           output := 0, last_derivative := 0 }

/-- Run a sequence of `update` calls, each given its tick and measured value;
only the resulting object state is kept. -/
def runUpdates (s : PIDState) (calls : List (ℤ × ℚ)) : PIDState :=
  calls.foldl (fun st c => (update st c.1 c.2).2) s

/-- An externally issued controller operation. -/
inductive PIDOp where
  | updateOp (now : ℤ) (v : ℚ)
  | setSetpointOp (sp : ℚ)
  | resetOp (now : ℤ)
deriving DecidableEq, Repr

/-- Effect of one operation on the controller state. -/
def applyOp (s : PIDState) : PIDOp → PIDState
  | .updateOp now v => (update s now v).2
  | .setSetpointOp sp => set_setpoint s sp
  | .resetOp now => pidReset s now

/-- Run a sequence of controller operations. -/
def runOps (s : PIDState) (ops : List PIDOp) : PIDState :=
  ops.foldl applyOp s

end PID

namespace Wizard

open PID

/-- One recorded data point of `PIDTuningWizard.step_test`
(`{'time', 'angle', 'error', 'output'}`). -/
structure SamplePoint where
  time : ℚ
  angle : ℚ
  error : ℚ
  output : ℚ
deriving DecidableEq, Repr

/-- Python float truthiness of an optional float: `None` and `0.0` are falsy. -/
def pyTruthy (o : Option ℚ) : Bool :=
  match o with
  | none => false
  | some q => decide (q ≠ 0)

/-- `PIDTuningWizard._calculate_rise_time(data, target)`: the first loop finds
the first point with `angle >= target * 0.1` and records its time; the second
loop returns, at the first point with `angle >= target * 0.9`, the time
difference `point.time - rise_start_time` if `rise_start_time` is truthy and
`None` otherwise; if no point reaches 90% the result is `None`. -/
def calculateRiseTime (data : List SamplePoint) (target : ℚ) : Option ℚ :=
  if data.isEmpty then none
  else
    let ten_percent := target * (1/10)
    let ninety_percent := target * (9/10)
    let rise_start_time :=
      (data.find? (fun p => decide (p.angle ≥ ten_percent))).map (·.time)
    match data.find? (fun p => decide (p.angle ≥ ninety_percent)) with
    | some p =>
        if pyTruthy rise_start_time then
          rise_start_time.map (fun t => p.time - t)
        else none
    | none => none

/-- Whether sample `i` of `data` lies outside the ±2% band around `target`
(`abs(data[i]['angle'] - target) > target * 0.02`); `false` out of range. -/
def violAt (data : List SamplePoint) (target : ℚ) (i : ℕ) : Bool :=
  match data.get? i with
  | some p => decide (|p.angle - target| > target * (2/100))
  | none => false

/-- The backward scan `for i in range(len(data)-1, 0, -1)` of
`_calculate_settling_time`: starting from index `n` and stopping above 0,
return the first (highest) index violating the band, if any. -/
def scanBack (data : List SamplePoint) (target : ℚ) : ℕ → Option ℕ
  | 0 => none
  | i + 1 =>
      if violAt data target (i + 1) then some (i + 1)
      else scanBack data target i

/-- `PIDTuningWizard._calculate_settling_time(data, target)` (the `tolerance`
parameter of the source is unused there; the band is `target * 0.02`).
On the first violating index `i` of the backward scan the source returns
`data[i+1]['time']` when `i+1 < len(data)` and `data[-1]['time']` otherwise;
when the scan finds no violation it returns `data[-1]['time']`. -/
def calculateSettlingTime (data : List SamplePoint) (target : ℚ) : Option ℚ :=
  if data.isEmpty then none
  else
    match scanBack data target (data.length - 1) with
    | some i =>
        if i + 1 < data.length then (data.get? (i + 1)).map (·.time)
        else data.getLast?.map (·.time)
    | none => data.getLast?.map (·.time)

/-- Per-cycle input of the `step_test` loop: the tick at which
`pid.update` is called, the elapsed-seconds stamp recorded in the sample, and
the measured angle read from the encoder. -/
structure CycleInput where
  nowMs : ℤ
  tSec : ℚ
  angle : ℚ
deriving DecidableEq, Repr

/-- Loop state of `PIDTuningWizard.step_test`: the controller object, the
running extrema and oscillation statistics, the recorded data list, and the
trace of `(pid output, clamped command)` pairs forwarded to
`motor.set_speed`. -/
structure StepTestState where
  pid : PIDState
  maxAngle : ℚ
  minAngle : ℚ
  oscCount : ℕ
  lastErrorSign : ℤ
  data : List SamplePoint
  motorCommands : List (ℚ × ℚ)
deriving DecidableEq, Repr

/-- One iteration of the `step_test` loop: call `pid.update` on the measured
angle (a raised exception aborts the run, modelled `none`); clamp the returned
output to `max(-80, min(80, control_output))`; forward the clamped command to
the motor; append the sample; update extrema and the error-sign oscillation
counter. -/
def stepCycle (st : StepTestState) (inp : CycleInput) : Option StepTestState :=
  match update st.pid inp.nowMs inp.angle with
  | (none, _) => none
  | (some u, pid') =>
      let control := max (-80 : ℚ) (min 80 u)
      let sample : SamplePoint :=
        ⟨inp.tSec, inp.angle, pid'.error, control⟩
      let maxAngle := if inp.angle > st.maxAngle then inp.angle else st.maxAngle
      let minAngle := if inp.angle < st.minAngle then inp.angle else st.minAngle
      let sign : ℤ := if pid'.error > 0 then 1 else -1
      let osc :=
        if st.lastErrorSign ≠ 0 ∧ sign ≠ st.lastErrorSign then st.oscCount + 1
        else st.oscCount
      some { pid := pid', maxAngle := maxAngle, minAngle := minAngle,
             oscCount := osc, lastErrorSign := sign,
             data := st.data ++ [sample],
             motorCommands := st.motorCommands ++ [(u, control)] }

/-- Run the `step_test` loop over a list of cycle inputs. -/
def runStepTest (st : StepTestState) : List CycleInput → Option StepTestState
  | [] => some st
  | i :: is =>
      match stepCycle st i with
      | none => none
      | some st' => runStepTest st' is

/-- Loop state at entry of `step_test(kp, ki, kd, step_angle, ...)`: a fresh
`PIDController(kp, ki, kd, setpoint=step_angle)` with the constructor defaults
`output_min=-100, output_max=100, sample_time=0.01`, immediately `reset()`;
`max_angle = min_angle = 0`, no oscillations, empty records. -/
def stepTestInit (kp ki kd step_angle : ℚ) (t0 : ℤ) : StepTestState :=
  { pid := pidReset (pidInit kp ki kd step_angle (-100) 100 (1/100) t0) t0,
    maxAngle := 0, minAngle := 0, oscCount := 0, lastErrorSign := 0,
    data := [], motorCommands := [] }

/-- The `'overshoot'` entry of the `step_test` results dictionary:
`((max_angle - step_angle) / step_angle * 100) if max_angle > step_angle
else 0`. -/
def stepTestOvershoot (st : StepTestState) (step_angle : ℚ) : ℚ :=
  if st.maxAngle > step_angle then
    (st.maxAngle - step_angle) / step_angle * 100
  else 0

end Wizard

namespace Tuner

/-- One recorded data point of `PIDTuner.auto_tune_step_response`
(`{'time', 'setpoint', 'actual', 'error', 'output'}`). -/
structure StepDatum where
  time : ℚ
  setpoint : ℚ
  actual : ℚ
  error : ℚ
  output : ℚ
deriving DecidableEq, Repr

/-- Python slice `data[-n:]` where `n ≥ 0`: for `n = 0` (`-0` is `0`) the
whole list; otherwise the last `min n (length)` elements. -/
def pyLastSlice (l : List StepDatum) (n : ℕ) : List StepDatum :=
  if n = 0 then l else l.drop (l.length - n)

/-- Metrics `PIDTuner._analyze_step_response` computes from a non-empty run. -/
structure StepAnalysis where
  steady_state_value : ℚ
  overshoot : ℚ
  steady_state_error : ℚ
  rise_time : Option ℚ
deriving DecidableEq, Repr

/-- The single pass of `_analyze_step_response` computing
`rise_start`/`rise_end`: `rise_start` is set at the first point with
`actual >= ten_percent`; the loop breaks at the first point with
`actual >= ninety_percent`, which sets `rise_end`. Returns the pair of
optional timestamps. -/
def riseScan (ten_percent ninety_percent : ℚ) :
    List StepDatum → Option ℚ → Option ℚ × Option ℚ
  | [], rs => (rs, none)
  | d :: rest, rs =>
      let rs' := if rs = none ∧ d.actual ≥ ten_percent then some d.time else rs
      if d.actual ≥ ninety_percent then (rs', some d.time)
      else riseScan ten_percent ninety_percent rest rs'

/-- `PIDTuner._analyze_step_response(data)` (`none` for empty data, on which
the source returns immediately): steady-state value is the mean of
`data[-len(data)//10:]` actuals; the maximum is `max(d['actual'])`; the
target is `data[0]['setpoint']`; overshoot is
`((max - target) / target) * 100 if target != 0 else 0`; rise time is
`rise_end - rise_start` when both recorded timestamps are truthy, else
`None`. -/
def analyzeStepResponse (data : List StepDatum) : Option StepAnalysis :=
  match data with
  | [] => none
  | d0 :: rest =>
      let steady_state_size := data.length / 10
      let steady_state_values :=
        (pyLastSlice data steady_state_size).map (·.actual)
      let steady_state_value :=
        steady_state_values.sum / (steady_state_values.length : ℚ)
      let max_value := (rest.map (·.actual)).foldl max d0.actual
      let target_value := d0.setpoint
      let overshoot :=
        if target_value ≠ 0 then (max_value - target_value) / target_value * 100
        else 0
      let steady_state_error := |target_value - steady_state_value|
      let scan :=
        riseScan (target_value * (1/10)) (target_value * (9/10)) data none
      let rise_time :=
        if Wizard.pyTruthy scan.1 ∧ Wizard.pyTruthy scan.2 then
          match scan.1, scan.2 with
          | some a, some b => some (b - a)
          | _, _ => none
        else none
      some { steady_state_value := steady_state_value, overshoot := overshoot,
             steady_state_error := steady_state_error, rise_time := rise_time }

end Tuner

/-! ## Theorems -/

/-- C1 counterexample: from phase 00, the forward 4-edge sequence
00→01→11→10→00 (phases written (A, B)) changes `count` by -4, not +4, and a
single non-adjacent phase jump 00→11 (both bits change in one edge event)
changes `count` by -1, not 0 — the handler's A-changed branch still fires. -/
theorem C1_counterexample :
    (Encoder.runIrq ⟨false, false, 0, 0⟩ Encoder.fwdSeq).count = -4 ∧
    (Encoder.encoderIrq ⟨false, false, 0, 0⟩ true true).count = -1 := by
  decide

/-- C1 amended: for any starting count, the complete forward phase sequence
00→01→11→10→00 yields a net change of exactly -4, the reverse sequence
exactly +4, and a single edge event in which both bits change adjusts the
count by +1 when the new A and B samples differ and by -1 when they are
equal — never 0. -/
theorem C1_edge_deltas (c : ℤ) (a b a' b' : Bool)
    (ha : a' ≠ a) (hb : b' ≠ b) :
    (Encoder.runIrq ⟨false, false, c, 0⟩ Encoder.fwdSeq).count = c - 4 ∧
    (Encoder.runIrq ⟨false, false, c, 0⟩ Encoder.revSeq).count = c + 4 ∧
    (Encoder.encoderIrq ⟨a, b, c, 0⟩ a' b').count =
      if a' ≠ b' then c + 1 else c - 1 := by
  refine ⟨?_, ?_, ?_⟩
  · simp [Encoder.runIrq, Encoder.fwdSeq, Encoder.encoderIrq]
    ring
  · simp [Encoder.runIrq, Encoder.revSeq, Encoder.encoderIrq]
    ring
  · cases a <;> cases b <;> cases a' <;> cases b' <;>
      simp_all [Encoder.encoderIrq]

/-- C1 witness: the amended statement at count 5 and the jump 00→11. -/
theorem C1_edge_deltas_witness :
    (Encoder.runIrq ⟨false, false, 5, 0⟩ Encoder.fwdSeq).count = 5 - 4 ∧
    (Encoder.runIrq ⟨false, false, 5, 0⟩ Encoder.revSeq).count = 5 + 4 ∧
    (Encoder.encoderIrq ⟨false, false, 5, 0⟩ true true).count =
      if (true : Bool) ≠ (true : Bool) then 5 + 1 else 5 - 1 :=
  C1_edge_deltas 5 false false true true (by decide) (by decide)

/-- C5: an `update` call made while the sample-time gate is closed returns the
stored output and leaves the whole state unchanged; a second gated call
returns the identical value. -/
theorem C5_gated_noop (s : PID.PIDState) (t1 t2 : ℤ) (v1 v2 : ℚ)
    (h1 : t1 - s.last_time < PID.pyInt (s.sample_time * 1000))
    (h2 : t2 - s.last_time < PID.pyInt (s.sample_time * 1000)) :
    PID.update s t1 v1 = (some s.output, s) ∧
    (PID.update (PID.update s t1 v1).2 t2 v2).1 = (PID.update s t1 v1).1 := by
  have e1 : PID.update s t1 v1 = (some s.output, s) := by
    unfold PID.update
    rw [if_pos h1]
  refine ⟨e1, ?_⟩
  rw [e1]
  show (PID.update s t2 v2).1 = some s.output
  unfold PID.update
  rw [if_pos h2]

/-- C5 witness: two gated calls on a freshly constructed controller with
`sample_time = 1` s, both at tick 5. -/
theorem C5_gated_noop_witness :
    PID.update (PID.pidInit 1 0 0 0 (-100) 100 1 0) 5 7 =
      (some (PID.pidInit 1 0 0 0 (-100) 100 1 0).output,
        PID.pidInit 1 0 0 0 (-100) 100 1 0) ∧
    (PID.update (PID.update (PID.pidInit 1 0 0 0 (-100) 100 1 0) 5 7).2 6 8).1 =
      (PID.update (PID.pidInit 1 0 0 0 (-100) 100 1 0) 5 7).1 :=
  C5_gated_noop (PID.pidInit 1 0 0 0 (-100) 100 1 0) 5 6 7 8
    (by norm_num [PID.pidInit, PID.pyInt]) (by norm_num [PID.pidInit, PID.pyInt])

/-- C3 counterexample: neither configuration error is guarded.
`get_angle` with `total_ppr = 0 * 30 = 0` executes the unguarded division and
raises `ZeroDivisionError` (modelled `none`, not a sentinel number), and an
`update` call on a controller constructed with `sample_time = 0` reaches the
derivative term and raises `ZeroDivisionError` there (modelled `none`),
contradicting the claim that the divide-by-zero is never performed. -/
theorem C3_counterexample :
    Encoder.get_angle 330 (Encoder.total_ppr 0 30) = none ∧
    (PID.update (PID.pidInit 1 0 0 0 (-100) 100 0 0) 0 0).1 = none := by
  refine ⟨by simp [Encoder.get_angle, Encoder.total_ppr], ?_⟩
  norm_num [PID.update, PID.pidInit, PID.pyInt]

/-- C3 amended: construction rejects neither a zero pulses-per-revolution nor
a zero sample time; `get_angle` with total PPR 0 performs the division and the
call fails with `ZeroDivisionError` (it does not return a fabricated number),
and every `update` call on a controller with `sample_time = 0` whose gate
passes performs the divide-by-zero in the derivative term and fails the same
way. -/
theorem C3_unguarded_divisions (c : ℤ) (gear : ℕ) (s : PID.PIDState)
    (t : ℤ) (v : ℚ) (hst : s.sample_time = 0)
    (hg : ¬ t - s.last_time < PID.pyInt (s.sample_time * 1000)) :
    Encoder.get_angle c (Encoder.total_ppr 0 gear) = none ∧
    (PID.update s t v).1 = none := by
  constructor
  · simp [Encoder.get_angle, Encoder.total_ppr]
  · unfold PID.update
    rw [if_neg hg]
    simp [hst]

/-- C3 witness: the amended statement at count 330, gear ratio 30, and a
fresh zero-sample-time controller called once the gate passes. -/
theorem C3_unguarded_divisions_witness :
    Encoder.get_angle 330 (Encoder.total_ppr 0 30) = none ∧
    (PID.update (PID.pidInit 1 0 0 0 (-100) 100 0 5) 5 7).1 = none :=
  C3_unguarded_divisions 330 30 (PID.pidInit 1 0 0 0 (-100) 100 0 5) 5 7
    rfl (by norm_num [PID.pidInit, PID.pyInt])

/-- Fields of the controller never written by `update`: the output limits, the
integral limit and the sample time. -/
theorem update_const_fields (s : PID.PIDState) (t : ℤ) (v : ℚ) :
    ((PID.update s t v).2).output_min = s.output_min ∧
    ((PID.update s t v).2).output_max = s.output_max ∧
    ((PID.update s t v).2).integral_limit = s.integral_limit ∧
    ((PID.update s t v).2).sample_time = s.sample_time := by
  unfold PID.update
  split
  · exact ⟨rfl, rfl, rfl, rfl⟩
  · dsimp only
    split
    · exact ⟨rfl, rfl, rfl, rfl⟩
    · exact ⟨rfl, rfl, rfl, rfl⟩

/-- One `update` call keeps the stored output within the output limits. -/
theorem update_output_bound (s : PID.PIDState) (t : ℤ) (v : ℚ)
    (hm : s.output_min ≤ s.output_max)
    (h1 : s.output_min ≤ s.output) (h2 : s.output ≤ s.output_max) :
    s.output_min ≤ ((PID.update s t v).2).output ∧
    ((PID.update s t v).2).output ≤ s.output_max := by
  unfold PID.update
  split
  · exact ⟨h1, h2⟩
  · dsimp only
    split
    · exact ⟨h1, h2⟩
    · dsimp only
      split_ifs <;> constructor <;> linarith

/-- When an `update` call returns a value, it is exactly the stored output of
the state after the call. -/
theorem update_fst_eq (s : PID.PIDState) (t : ℤ) (v : ℚ) (r : ℚ)
    (h : (PID.update s t v).1 = some r) :
    r = ((PID.update s t v).2).output := by
  unfold PID.update at h ⊢
  split at h
  · rename_i hg
    rw [if_pos hg]
    exact (Option.some.inj h).symm
  · rename_i hg
    rw [if_neg hg]
    dsimp only at h ⊢
    split at h
    · exact absurd h (by simp)
    · rename_i hz
      rw [if_neg hz]
      exact (Option.some.inj h).symm

/-- Any sequence of `update` calls keeps the output limits fixed and the
stored output within them. -/
theorem runUpdates_bound (calls : List (ℤ × ℚ)) (s : PID.PIDState)
    (hm : s.output_min ≤ s.output_max)
    (h1 : s.output_min ≤ s.output) (h2 : s.output ≤ s.output_max) :
    (PID.runUpdates s calls).output_min = s.output_min ∧
    (PID.runUpdates s calls).output_max = s.output_max ∧
    s.output_min ≤ (PID.runUpdates s calls).output ∧
    (PID.runUpdates s calls).output ≤ s.output_max := by
  induction calls generalizing s with
  | nil => exact ⟨rfl, rfl, h1, h2⟩
  | cons c cs ih =>
      obtain ⟨e1, e2, _, _⟩ := update_const_fields s c.1 c.2
      obtain ⟨b1, b2⟩ := update_output_bound s c.1 c.2 hm h1 h2
      have step : PID.runUpdates s (c :: cs) =
          PID.runUpdates (PID.update s c.1 c.2).2 cs := rfl
      rw [step]
      obtain ⟨f1, f2, f3, f4⟩ :=
        ih (PID.update s c.1 c.2).2 (by rw [e1, e2]; exact hm)
          (by rw [e1]; exact b1) (by rw [e2]; exact b2)
      exact ⟨f1.trans e1, f2.trans e2, by rw [← e1]; exact f3,
        by rw [← e2]; exact f4⟩

/-- C2: on a controller constructed with `output_min ≤ 0 ≤ output_max`, after
any sequence of `update` calls (any gains, setpoint, tick times and measured
values) the stored output lies in `[output_min, output_max]`, and any further
`update` call that returns a value returns one in the same interval. -/
theorem C2_output_bounded (kp ki kd sp omin omax stime : ℚ) (t0 : ℤ)
    (hmin : omin ≤ 0) (hmax : 0 ≤ omax) (calls : List (ℤ × ℚ)) :
    (omin ≤ (PID.runUpdates (PID.pidInit kp ki kd sp omin omax stime t0) calls).output ∧
     (PID.runUpdates (PID.pidInit kp ki kd sp omin omax stime t0) calls).output ≤ omax) ∧
    ∀ t v r,
      (PID.update (PID.runUpdates (PID.pidInit kp ki kd sp omin omax stime t0)
          calls) t v).1 = some r →
      omin ≤ r ∧ r ≤ omax := by
  have hm : omin ≤ omax := hmin.trans hmax
  obtain ⟨e1, e2, b1, b2⟩ :=
    runUpdates_bound calls (PID.pidInit kp ki kd sp omin omax stime t0) hm hmin hmax
  refine ⟨⟨b1, b2⟩, ?_⟩
  intro t v r hr
  set S := PID.runUpdates (PID.pidInit kp ki kd sp omin omax stime t0) calls with hS
  have hrr := update_fst_eq S t v r hr
  obtain ⟨c1, c2⟩ := update_output_bound S t v (by rw [e1, e2]; exact hm)
    (by rw [e1]; exact b1) (by rw [e2]; exact b2)
  rw [hrr]
  exact ⟨le_trans (le_of_eq (show omin = S.output_min from e1.symm)) c1,
    le_trans c2 (le_of_eq (show S.output_max = omax from e2))⟩

/-- C2 witness: gains (1, 0.5, 0.1), limits [-100, 100], one accepted update
at tick 100 with measured value 30. -/
theorem C2_output_bounded_witness :
    -100 ≤ (PID.runUpdates (PID.pidInit 1 (1/2) (1/10) 90 (-100) 100 (1/100) 0)
        [(100, 30)]).output ∧
    (PID.runUpdates (PID.pidInit 1 (1/2) (1/10) 90 (-100) 100 (1/100) 0)
        [(100, 30)]).output ≤ 100 :=
  (C2_output_bounded 1 (1/2) (1/10) 90 (-100) 100 (1/100) 0 (by norm_num)
    (by norm_num) [(100, 30)]).1

/-- The integral clamp of `update` keeps the accumulator within a nonnegative
limit in absolute value. -/
theorem clamp_abs_le (lim x : ℚ) (h : 0 ≤ lim) :
    |if x > lim then lim else if x < -lim then -lim else x| ≤ lim := by
  rw [abs_le]
  split_ifs <;> constructor <;> linarith

/-- One `update` call keeps the integral accumulator within the integral
limit (in all three branches: gated, raising, and normal). -/
theorem update_integral_bound (s : PID.PIDState) (t : ℤ) (v : ℚ)
    (hlim : 0 ≤ s.integral_limit) (h : |s.integral| ≤ s.integral_limit) :
    |((PID.update s t v).2).integral| ≤ s.integral_limit := by
  unfold PID.update
  split
  · exact h
  · dsimp only
    split
    · exact clamp_abs_le _ _ hlim
    · exact clamp_abs_le _ _ hlim

/-- Every controller operation preserves the integral limit and keeps the
integral accumulator within it. -/
theorem applyOp_integral_bound (s : PID.PIDState) (op : PID.PIDOp)
    (hlim : 0 ≤ s.integral_limit) (h : |s.integral| ≤ s.integral_limit) :
    ((PID.applyOp s op).integral_limit = s.integral_limit) ∧
    |(PID.applyOp s op).integral| ≤ s.integral_limit := by
  cases op with
  | updateOp now v =>
      exact ⟨(update_const_fields s now v).2.2.1,
        update_integral_bound s now v hlim h⟩
  | setSetpointOp sp =>
      refine ⟨rfl, ?_⟩
      show |(0:ℚ)| ≤ s.integral_limit
      simpa using hlim
  | resetOp now =>
      refine ⟨rfl, ?_⟩
      show |(0:ℚ)| ≤ s.integral_limit
      simpa using hlim

/-- Any sequence of controller operations preserves the integral-accumulator
bound. -/
theorem runOps_integral_bound (ops : List PID.PIDOp) (s : PID.PIDState)
    (hlim : 0 ≤ s.integral_limit) (h : |s.integral| ≤ s.integral_limit) :
    (PID.runOps s ops).integral_limit = s.integral_limit ∧
    |(PID.runOps s ops).integral| ≤ s.integral_limit := by
  induction ops generalizing s with
  | nil => exact ⟨rfl, h⟩
  | cons op ops ih =>
      obtain ⟨e, b⟩ := applyOp_integral_bound s op hlim h
      have step : PID.runOps s (op :: ops) = PID.runOps (PID.applyOp s op) ops := rfl
      rw [step]
      obtain ⟨f1, f2⟩ := ih (PID.applyOp s op) (by rw [e]; exact hlim)
        (by rw [e]; exact b)
      exact ⟨f1.trans e, e ▸ f2⟩

/-- C6: on a controller constructed with `output_max ≥ 0`, after any sequence
of operations (updates with arbitrary ticks and measured values,
`set_setpoint`, `reset`) the integral accumulator's magnitude never exceeds
`0.8 × output_max`. -/
theorem C6_integral_bounded (kp ki kd sp omin omax stime : ℚ) (t0 : ℤ)
    (hmax : 0 ≤ omax) (ops : List PID.PIDOp) :
    |(PID.runOps (PID.pidInit kp ki kd sp omin omax stime t0) ops).integral| ≤
      (8/10) * omax := by
  have hlim : (0:ℚ) ≤ (PID.pidInit kp ki kd sp omin omax stime t0).integral_limit := by
    show (0:ℚ) ≤ omax * (8/10)
    nlinarith
  have h0 : |(PID.pidInit kp ki kd sp omin omax stime t0).integral| ≤
      (PID.pidInit kp ki kd sp omin omax stime t0).integral_limit := by
    show |(0:ℚ)| ≤ _
    simpa using hlim
  obtain ⟨_, b⟩ := runOps_integral_bound ops _ hlim h0
  have e : (PID.pidInit kp ki kd sp omin omax stime t0).integral_limit =
      (8/10) * omax := by
    show omax * (8/10) = (8/10) * omax
    ring
  exact e ▸ b

/-- C6 witness: one accepted update followed by a setpoint change on a
controller with `output_max = 100`. -/
theorem C6_integral_bounded_witness :
    |(PID.runOps (PID.pidInit 2 (1/2) 0 90 (-100) 100 (1/100) 0)
        [PID.PIDOp.updateOp 100 30, PID.PIDOp.setSetpointOp 45]).integral| ≤
      (8/10) * 100 :=
  C6_integral_bounded 2 (1/2) 0 90 (-100) 100 (1/100) 0 (by norm_num)
    [PID.PIDOp.updateOp 100 30, PID.PIDOp.setSetpointOp 45]

/-- C4 counterexample: on `[(t=0, angle=0), (t=1, angle=50)]` with target 90
the final sample violates the ±2% band (|50-90| > 1.8), yet the settling time
is reported as the final sample's own timestamp `1`, not as unavailable. -/
theorem C4_counterexample :
    Wizard.calculateSettlingTime [⟨0, 0, 0, 0⟩, ⟨1, 50, 0, 0⟩] 90 = some 1 ∧
    |(50 : ℚ) - 90| > 90 * (2/100) := by
  constructor
  · norm_num [Wizard.calculateSettlingTime, Wizard.scanBack, Wizard.violAt]
  · norm_num

/-- C4 amended: on non-empty data the settling-time computation always
produces a timestamp, never the unavailable value; in particular when the
final sample violates the ±2% band the reported value is that final sample's
own timestamp. The rise-time computation, in contrast, does report
unavailable whenever no sample reaches the 90% threshold. -/
theorem C4_settling_behavior (data : List Wizard.SamplePoint) (target : ℚ)
    (h : data ≠ []) :
    (Wizard.calculateSettlingTime data target).isSome = true ∧
    (Wizard.violAt data target (data.length - 1) = true →
      Wizard.calculateSettlingTime data target = data.getLast?.map (·.time)) ∧
    ((∀ p ∈ data, ¬ target * (9/10) ≤ p.angle) →
      Wizard.calculateRiseTime data target = none) := by
  have hne : ¬ (data.isEmpty = true) := by
    simp [List.isEmpty_iff, h]
  have hlast : data.getLast?.isSome = true := by
    rw [List.getLast?_isSome]
    exact h
  refine ⟨?_, ?_, ?_⟩
  · unfold Wizard.calculateSettlingTime
    rw [if_neg hne]
    cases hscan : Wizard.scanBack data target (data.length - 1) with
    | none => simpa using hlast
    | some i =>
        dsimp only
        by_cases hlt : i + 1 < data.length
        · rw [if_pos hlt]
          rw [List.get?_eq_get hlt]
          rfl
        · rw [if_neg hlt]
          simpa using hlast
  · intro hv
    have hpos : 0 < data.length := List.length_pos.mpr h
    unfold Wizard.calculateSettlingTime
    rw [if_neg hne]
    rcases hn : data.length - 1 with _ | m
    · rfl
    · have hlen : data.length = m + 2 := by omega
      rw [hn] at hv
      have hscan : Wizard.scanBack data target (m + 1) = some (m + 1) := by
        unfold Wizard.scanBack
        rw [if_pos hv]
      rw [hscan]
      dsimp only
      rw [if_neg (by omega)]
  · intro hno
    have hfind : data.find? (fun p => decide (p.angle ≥ target * (9/10))) = none := by
      apply List.find?_eq_none.mpr
      intro p hp
      simpa using hno p hp
    unfold Wizard.calculateRiseTime
    rw [if_neg hne]
    simp only [hfind]

/-- C4 witness: a single sample at angle 50 with target 90 violates the band,
and the settling time comes back as that sample's timestamp. -/
theorem C4_settling_behavior_witness :
    Wizard.calculateSettlingTime [⟨0, 50, 0, 0⟩] 90 =
      ([⟨0, 50, 0, 0⟩] : List Wizard.SamplePoint).getLast?.map (·.time) :=
  (C4_settling_behavior [⟨0, 50, 0, 0⟩] 90 (by simp)).2.1
    (by norm_num [Wizard.violAt])

/-- C10: when the first sample reaching the 10% threshold carries timestamp
exactly 0.0, the rise time is reported unavailable even though some sample
reaches the 90% threshold, because the recorded 10%-crossing timestamp is
tested for truthiness (`if rise_start_time`) and `0.0` is falsy. -/
theorem C10_rise_zero_time (data : List Wizard.SamplePoint) (target : ℚ)
    (p0 : Wizard.SamplePoint)
    (h1 : data.find? (fun p => decide (p.angle ≥ target * (1/10))) = some p0)
    (h2 : p0.time = 0)
    (h3 : (data.find? (fun p => decide (p.angle ≥ target * (9/10)))).isSome = true) :
    Wizard.calculateRiseTime data target = none := by
  have hne : ¬ (data.isEmpty = true) := by
    intro hE
    rw [List.isEmpty_iff.mp hE] at h1
    simp at h1
  obtain ⟨q, hq⟩ := Option.isSome_iff_exists.mp h3
  unfold Wizard.calculateRiseTime
  rw [if_neg hne]
  simp only [hq, h1, h2, Wizard.pyTruthy]
  simp
  exact h2

/-- C10 witness: samples `[(t=0, angle=10), (t=1, angle=90)]` with target 90
cross 10% at time 0.0 and 90% at time 1, yet the rise time is `None`. -/
theorem C10_rise_zero_time_witness :
    Wizard.calculateRiseTime [⟨0, 10, 0, 0⟩, ⟨1, 90, 0, 0⟩] 90 = none :=
  C10_rise_zero_time [⟨0, 10, 0, 0⟩, ⟨1, 90, 0, 0⟩] 90 ⟨0, 10, 0, 0⟩
    (by norm_num [List.find?]) rfl (by norm_num [List.find?])

/-- C9: with fewer than 10 recorded samples, `len(data) // 10 = 0`, the slice
`data[-0:]` is the whole list, and the steady-state value degenerates to the
mean of the entire sequence. -/
theorem C9_short_data_mean (data : List Tuner.StepDatum)
    (h1 : data ≠ []) (h2 : data.length < 10) :
    (Tuner.analyzeStepResponse data).map (·.steady_state_value) =
      some ((data.map (·.actual)).sum / (data.length : ℚ)) := by
  cases data with
  | nil => exact absurd rfl h1
  | cons d0 rest =>
      have hs : (d0 :: rest).length / 10 = 0 := Nat.div_eq_of_lt h2
      simp only [Tuner.analyzeStepResponse, hs, Tuner.pyLastSlice,
        if_pos rfl, Option.map_some]
      simp [List.length_map]

/-- C9 witness: two samples with actual values 1 and 2 give steady-state
value (1+2)/2. -/
theorem C9_short_data_mean_witness :
    (Tuner.analyzeStepResponse [⟨0, 90, 1, 0, 0⟩, ⟨1, 90, 2, 0, 0⟩]).map
        (·.steady_state_value) =
      some ((([⟨0, 90, 1, 0, 0⟩, ⟨1, 90, 2, 0, 0⟩] :
          List Tuner.StepDatum).map (·.actual)).sum /
        ((([⟨0, 90, 1, 0, 0⟩, ⟨1, 90, 2, 0, 0⟩] :
          List Tuner.StepDatum).length : ℕ) : ℚ)) :=
  C9_short_data_mean [⟨0, 90, 1, 0, 0⟩, ⟨1, 90, 2, 0, 0⟩]
    (by simp) (by simp)

/-- An `update` call only raises (returns no value) when `sample_time` is
zero. -/
theorem update_fst_none (s : PID.PIDState) (t : ℤ) (v : ℚ)
    (h : (PID.update s t v).1 = none) : s.sample_time = 0 := by
  unfold PID.update at h
  split at h
  · simp at h
  · dsimp only at h
    split at h
    · rename_i hz
      exact hz
    · simp at h

/-- With a nonzero sample time one `step_test` cycle always completes,
preserves the sample time, tracks the running maximum of measured angles, and
appends exactly one `(pid output, clamped command)` pair. -/
theorem stepCycle_some (st : Wizard.StepTestState) (inp : Wizard.CycleInput)
    (hs : st.pid.sample_time ≠ 0) :
    ∃ st', Wizard.stepCycle st inp = some st' ∧
      st'.pid.sample_time = st.pid.sample_time ∧
      st'.maxAngle = max st.maxAngle inp.angle ∧
      ∃ u, st'.motorCommands = st.motorCommands ++ [(u, max (-80) (min 80 u))] := by
  unfold Wizard.stepCycle
  rcases hu : PID.update st.pid inp.nowMs inp.angle with ⟨fst, pid'⟩
  cases fst with
  | none =>
      refine absurd (update_fst_none st.pid inp.nowMs inp.angle ?_) hs
      rw [hu]
  | some u =>
      refine ⟨_, rfl, ?_, ?_, u, rfl⟩
      · have hc := (update_const_fields st.pid inp.nowMs inp.angle).2.2.2
        rw [hu] at hc
        exact hc
      · dsimp only
        split_ifs with hgt
        · exact (max_eq_right hgt.le).symm
        · exact (max_eq_left (not_lt.mp hgt)).symm

/-- With a nonzero sample time the whole `step_test` loop completes; its final
running maximum folds `max` over the measured angles, and every recorded
motor command either predates the loop or is the clamp of its cycle's pid
output. -/
theorem runStepTest_run (inputs : List Wizard.CycleInput)
    (st : Wizard.StepTestState) (hs : st.pid.sample_time ≠ 0) :
    ∃ st', Wizard.runStepTest st inputs = some st' ∧
      st'.maxAngle = (inputs.map (·.angle)).foldl max st.maxAngle ∧
      (∀ pc ∈ st'.motorCommands, pc ∈ st.motorCommands ∨
        pc.2 = max (-80) (min 80 pc.1)) := by
  induction inputs generalizing st with
  | nil => exact ⟨st, rfl, rfl, fun pc hpc => Or.inl hpc⟩
  | cons i is ih =>
      obtain ⟨st1, hc, hsample, hmax, u, hcmd⟩ := stepCycle_some st i hs
      obtain ⟨st', hrun, hmax', hcmds⟩ := ih st1 (by rw [hsample]; exact hs)
      refine ⟨st', ?_, ?_, ?_⟩
      · unfold Wizard.runStepTest
        rw [hc]
        exact hrun
      · rw [hmax', hmax]
        rfl
      · intro pc hpc
        rcases hcmds pc hpc with hin | heq
        · rw [hcmd] at hin
          rcases List.mem_append.mp hin with hA | hB
          · exact Or.inl hA
          · simp only [List.mem_singleton] at hB
            subst hB
            exact Or.inr rfl
        · exact Or.inr heq

/-- C8: every `(pid output, command)` pair recorded by a complete `step_test`
run has its command equal to `max(-80, min(80, output))`, hence within the
safety band [-80, 80], for any gains, step angle and measured angles. -/
theorem C8_safety_clamp (kp ki kd step_angle : ℚ) (t0 : ℤ)
    (inputs : List Wizard.CycleInput) (pc : ℚ × ℚ)
    (hpc : pc ∈ ((Wizard.runStepTest (Wizard.stepTestInit kp ki kd step_angle t0)
        inputs).map (·.motorCommands)).getD []) :
    pc.2 = max (-80) (min 80 pc.1) ∧ -80 ≤ pc.2 ∧ pc.2 ≤ 80 := by
  have hs : (Wizard.stepTestInit kp ki kd step_angle t0).pid.sample_time ≠ 0 := by
    norm_num [Wizard.stepTestInit, PID.pidReset, PID.pidInit]
  obtain ⟨st', hrun, _, hcmds⟩ := runStepTest_run inputs _ hs
  rw [hrun] at hpc
  simp only [Option.map_some', Option.getD_some] at hpc
  rcases hcmds pc hpc with hin | heq
  · simp [Wizard.stepTestInit] at hin
  · refine ⟨heq, ?_, ?_⟩
    · rw [heq]
      exact le_max_left _ _
    · rw [heq]
      exact max_le (by norm_num) (min_le_left _ _)

/-- C8 witness: gains (1,0,0), step 90, one cycle at tick 1000 measuring
angle 0; the pid output is 90 and the forwarded command is clamped to 80. -/
theorem C8_safety_clamp_witness :
    ((90 : ℚ), (80 : ℚ)).2 = max (-80) (min 80 ((90 : ℚ), (80 : ℚ)).1) ∧
    (-80 : ℚ) ≤ ((90 : ℚ), (80 : ℚ)).2 ∧ ((90 : ℚ), (80 : ℚ)).2 ≤ 80 :=
  C8_safety_clamp 1 0 0 90 0 [⟨1000, 1, 0⟩] (90, 80)
    (by norm_num [Wizard.runStepTest, Wizard.stepCycle, Wizard.stepTestInit,
      PID.update, PID.pidReset, PID.pidInit, PID.pyInt])

/-- Folding `max` from a `max` of two seeds splits off the left seed. -/
theorem foldl_max_init (l : List ℚ) (b a : ℚ) :
    l.foldl max (max b a) = max b (l.foldl max a) := by
  induction l generalizing a with
  | nil => rfl
  | cons x xs ih =>
      show xs.foldl max (max (max b a) x) = max b (xs.foldl max (max a x))
      rw [max_assoc]
      exact ih (max a x)

/-- C7 counterexample: `_analyze_step_response` on a single sample with
actual 50 and setpoint 90 reports overshoot `-400/9` (≈ -44.4%), not 0, even
though the maximum sample does not exceed the target — the claimed
else-0 clause does not exist in that code path. -/
theorem C7_counterexample :
    (Tuner.analyzeStepResponse [⟨0, 90, 50, 40, 0⟩]).map (·.overshoot) =
      some (-400/9) ∧ ((50 : ℚ) ≤ 90) ∧ ((-400/9 : ℚ) ≠ 0) := by
  refine ⟨?_, by norm_num, by norm_num⟩
  norm_num [Tuner.analyzeStepResponse, Tuner.pyLastSlice, Tuner.riseScan,
    Wizard.pyTruthy]

/-- C7 amended: the wizard's `step_test` overshoot equals the claimed
formula for every positive target (its running maximum starts at 0, which
coincides with the true sample maximum whenever the target is exceeded); the
tuner's `_analyze_step_response` overshoot instead applies
`(max - target)/target*100` for every nonzero target with no clamping to 0;
and on a sample sequence rising 0 → 99 then flat at 99 with target 90 the
overshoot is 10% and the steady-state value is 99. -/
theorem C7_overshoot (kp ki kd step_angle : ℚ) (t0 : ℤ)
    (i0 : Wizard.CycleInput) (rest : List Wizard.CycleInput)
    (hstep : 0 < step_angle)
    (d0 : Tuner.StepDatum) (drest : List Tuner.StepDatum)
    (htarget : d0.setpoint ≠ 0) :
    (Wizard.runStepTest (Wizard.stepTestInit kp ki kd step_angle t0)
        (i0 :: rest)).map (fun st => Wizard.stepTestOvershoot st step_angle) =
      some (if (rest.map (·.angle)).foldl max i0.angle > step_angle then
          ((rest.map (·.angle)).foldl max i0.angle - step_angle) /
            step_angle * 100
        else 0) ∧
    (Tuner.analyzeStepResponse (d0 :: drest)).map (·.overshoot) =
      some (((drest.map (·.actual)).foldl max d0.actual - d0.setpoint) /
        d0.setpoint * 100) ∧
    (Tuner.analyzeStepResponse
        [⟨0, 90, 0, 0, 0⟩, ⟨1, 90, 50, 0, 0⟩, ⟨2, 90, 99, 0, 0⟩,
         ⟨3, 90, 99, 0, 0⟩, ⟨4, 90, 99, 0, 0⟩, ⟨5, 90, 99, 0, 0⟩,
         ⟨6, 90, 99, 0, 0⟩, ⟨7, 90, 99, 0, 0⟩, ⟨8, 90, 99, 0, 0⟩,
         ⟨9, 90, 99, 0, 0⟩]).map
        (fun a => (a.overshoot, a.steady_state_value)) = some (10, 99) := by
  refine ⟨?_, ?_, ?_⟩
  · have hs : (Wizard.stepTestInit kp ki kd step_angle t0).pid.sample_time ≠ 0 := by
      norm_num [Wizard.stepTestInit, PID.pidReset, PID.pidInit]
    obtain ⟨st', hrun, hmax, _⟩ := runStepTest_run (i0 :: rest) _ hs
    rw [hrun]
    have hm0 : ((i0 :: rest).map (·.angle)).foldl max
        (Wizard.stepTestInit kp ki kd step_angle t0).maxAngle =
        max 0 ((rest.map (·.angle)).foldl max i0.angle) := by
      show (rest.map (·.angle)).foldl max (max 0 i0.angle) = _
      exact foldl_max_init (rest.map (·.angle)) 0 i0.angle
    rw [hm0] at hmax
    set T := (rest.map (·.angle)).foldl max i0.angle with hT
    simp only [Option.map_some']
    unfold Wizard.stepTestOvershoot
    rw [hmax]
    by_cases hgt : T > step_angle
    · have hmx : max 0 T = T := max_eq_right (hstep.trans hgt).le
      rw [hmx]
    · have hmx : ¬ (max 0 T > step_angle) := by
        rw [not_lt] at hgt ⊢
        exact max_le hstep.le hgt
      rw [if_neg hmx, if_neg hgt]
  · simp only [Tuner.analyzeStepResponse, Option.map_some']
    simp [htarget]
  · norm_num [Tuner.analyzeStepResponse, Tuner.pyLastSlice, Tuner.riseScan,
      Wizard.pyTruthy]

/-- C7 witness: the amended statement for a one-cycle run with step 90 and
analyzer data with setpoint 90; the scenario conjunct projected out. -/
theorem C7_overshoot_witness :
    (Tuner.analyzeStepResponse
        [⟨0, 90, 0, 0, 0⟩, ⟨1, 90, 50, 0, 0⟩, ⟨2, 90, 99, 0, 0⟩,
         ⟨3, 90, 99, 0, 0⟩, ⟨4, 90, 99, 0, 0⟩, ⟨5, 90, 99, 0, 0⟩,
         ⟨6, 90, 99, 0, 0⟩, ⟨7, 90, 99, 0, 0⟩, ⟨8, 90, 99, 0, 0⟩,
         ⟨9, 90, 99, 0, 0⟩]).map
        (fun a => (a.overshoot, a.steady_state_value)) = some (10, 99) :=
  (C7_overshoot 1 0 0 90 0 ⟨1000, 1, 0⟩ [] (by norm_num)
    ⟨0, 90, 50, 40, 0⟩ [] (by norm_num)).2.2
